import Mathlib

/-!
Shallow embedding of the AutoBizz vehicle-auction backend
(`backend/app/models.py`, `backend/app/routes/bids.py`,
`backend/app/routes/auctions.py`, `backend/app/routes/auth.py`,
`backend/app/routes/utils.py`, `backend/app/routes/notifications.py`,
`backend/app/push_delivery.py`) together with theorems checking the
natural-language specification against it.

Monetary amounts are modelled as integer cents (the code stores
`Decimal` quantized to 2 places).  Timestamps are modelled as an
integer wall-clock value in seconds plus an optional UTC offset,
mirroring Python `datetime` objects that may be naive (`tzinfo is
None`) or aware.
-/

/-- Python `datetime`: a wall-clock reading plus an optional UTC offset
(`tz = none` models a naive datetime). -/
structure PyDateTime where
  wall : Int
  tz : Option Int
deriving DecidableEq, Repr

/-- The instant denoted by an aware datetime (wall minus offset); for a
naive value the offset defaults to 0. -/
def pyInstant (d : PyDateTime) : Int :=
  d.wall - d.tz.getD 0

/-- `end_at.replace(tzinfo=UTC)` applied only when the stored value is
naive, as in `place_bid` (bids.py lines 48-49). -/
def normalizeNaiveUTC (d : PyDateTime) : PyDateTime :=
  if d.tz = none then { d with tz := some 0 } else d

/-- `utcnow()` from models.py: the current instant as an aware UTC datetime. -/
def utcnow (now : Int) : PyDateTime :=
  { wall := now, tz := some 0 }

inductive UserRole where
  | admin
  | seller
  | buyer
deriving DecidableEq, Repr

inductive UserStatus where
  | active
  | suspended
deriving DecidableEq, Repr

inductive AuctionStatus where
  | draft
  | active
  | closed
  | cancelled
deriving DecidableEq, Repr

inductive NotificationType where
  | newAuction
  | result
deriving DecidableEq, Repr

structure User where
  id : Nat
  username : String
  role : UserRole
  status : UserStatus
deriving DecidableEq, Repr

/-- `User.is_active` from models.py. -/
def User.is_active (u : User) : Bool :=
  u.status = UserStatus.active

/-- Auction row.  `minPrice` (cents) is the minimum-price attribute used
by routes/auctions.py (`_parse_price`, `auction.min_price`); note that
`place_bid` never reads it. -/
structure Auction where
  id : Nat
  sellerId : Nat
  status : AuctionStatus
  startAt : Option PyDateTime
  endAt : Option PyDateTime
  minPrice : Int
deriving DecidableEq, Repr

structure Bid where
  id : Nat
  auctionId : Nat
  buyerId : Nat
  amount : Int
  idxPerBuyer : Nat
  createdAt : Int
deriving DecidableEq, Repr

/-- The dictionary produced by `serialize_bid` (bids.py lines 81-88). -/
structure BidSnapshot where
  id : Nat
  amount : Int
  buyerId : Nat
  buyerUsername : Option String
  createdAt : Int
deriving DecidableEq, Repr

/-- `serialize_bid(bid)` with `bid.buyer` as an optional `User`. -/
def serialize_bid (b : Bid) (buyer : Option User) : BidSnapshot :=
  { id := b.id
    amount := b.amount
    buyerId := b.buyerId
    buyerUsername := buyer.map User.username
    createdAt := b.createdAt }

inductive NotifPayload where
  | newAuction (auctionId : Nat)
  | result (auctionId : Nat) (latestBid : BidSnapshot)
deriving DecidableEq, Repr

structure Notification where
  id : Nat
  userId : Nat
  ntype : NotificationType
  payload : NotifPayload
deriving DecidableEq, Repr

structure Device where
  id : Nat
  userId : Nat
  expoPushToken : String
deriving DecidableEq, Repr

structure AuditLog where
  actorId : Nat
  action : String
  targetId : String
deriving DecidableEq, Repr

/-- The relational store visible to the embedded operations. -/
structure DB where
  users : List User
  auctions : List Auction
  bids : List Bid
  notifications : List Notification
  devices : List Device
  auditLogs : List AuditLog
deriving DecidableEq, Repr

/-- The raw `amount` field of the JSON body: either not parseable as a
decimal (`Decimal(str(amount))` raises) or a decimal value `num / den`. -/
inductive RawAmount where
  | nonNumeric
  | numeric (num : Int) (den : Nat)
deriving DecidableEq, Repr

/-- Round `a / b` to the nearest integer with ties rounded up
(nonnegative inputs). -/
def halfUpDivNat (a b : Nat) : Nat :=
  (2 * a + b) / (2 * b)

/-- `Decimal(...).quantize(Decimal("0.01"), rounding=ROUND_HALF_UP)` on
the value `num / den`, in cents: round half away from zero. -/
def roundHalfUpCents (num : Int) (den : Nat) : Int :=
  if 0 ≤ num then (halfUpDivNat (num.toNat * 100) den : Int)
  else -(halfUpDivNat ((-num).toNat * 100) den : Int)

/-- `Decimal(str(amount)).quantize(TWO_PLACES, rounding=ROUND_HALF_UP)`
wrapped in the `try/except` of bids.py lines 57-60: `none` models the
`TypeError`/`InvalidOperation` branch. -/
def parseBidAmount : RawAmount → Option Int
  | RawAmount.nonNumeric => none
  | RawAmount.numeric num den =>
      if den = 0 then none else some (roundHalfUpCents num den)

/-- The `abort(...)` outcomes of `place_bid`. -/
inductive BidError where
  | missingAmount
  | auctionNotFound
  | auctionNotActive
  | auctionClosed
  | bidLimitReached
  | amountNotNumeric
  | amountNotPositive
deriving DecidableEq, Repr

/-- The `description=` string attached to each `abort`. -/
def BidError.message : BidError → String
  | BidError.missingAmount => "Missing bid amount"
  | BidError.auctionNotFound => "Auction not found"
  | BidError.auctionNotActive => "Auction not active"
  | BidError.auctionClosed => "Auction already closed"
  | BidError.bidLimitReached => "Bid limit reached for this auction"
  | BidError.amountNotNumeric => "Bid amount must be numeric"
  | BidError.amountNotPositive => "Bid amount must be positive"

/-- The expiry test of bids.py lines 47-51: a naive stored `end_at` is
first reinterpreted as UTC, and the auction counts as closed when
`end_at <= utcnow()`.  (A `datetime` object is always truthy, so
`if end_at and ...` is exactly a `None` check.) -/
def auctionExpired (a : Auction) (now : Int) : Bool :=
  match a.endAt with
  | none => false
  | some e => pyInstant (normalizeNaiveUTC e) ≤ now

/-- `existing_count` of bids.py line 53: bids by this buyer on this auction. -/
def countBidsBy (db : DB) (auctionId buyerId : Nat) : Nat :=
  (db.bids.filter (fun b => b.auctionId == auctionId && b.buyerId == buyerId)).length

/-- `notify_bid_outcome(auction, bid)` (bids.py lines 91-100): one RESULT
notification addressed to the auction's seller carrying the serialized bid. -/
def notify_bid_outcome (a : Auction) (b : Bid) (buyer : Option User) (freshNotifId : Nat) :
    Notification :=
  { id := freshNotifId
    userId := a.sellerId
    ntype := NotificationType.result
    payload := NotifPayload.result a.id (serialize_bid b buyer) }

/-- `place_bid` (bids.py lines 32-78), with fresh primary keys passed
explicitly in place of `uuid4` defaults.  Each `abort` becomes an
`Except.error`; success returns the updated store and the new bid. -/
def place_bid (db : DB) (user : User) (rawAmount : Option RawAmount)
    (auctionId : Nat) (now : Int) (freshBidId freshNotifId : Nat) :
    Except BidError (DB × Bid) :=
  match rawAmount with
  | none => Except.error BidError.missingAmount
  | some raw =>
    match db.auctions.find? (fun a => a.id == auctionId) with
    | none => Except.error BidError.auctionNotFound
    | some auction =>
      if auction.status ≠ AuctionStatus.active then
        Except.error BidError.auctionNotActive
      else if auctionExpired auction now then
        Except.error BidError.auctionClosed
      else
        let existingCount := countBidsBy db auctionId user.id
        if 2 ≤ existingCount then
          Except.error BidError.bidLimitReached
        else
          match parseBidAmount raw with
          | none => Except.error BidError.amountNotNumeric
          | some cents =>
            if cents ≤ 0 then
              Except.error BidError.amountNotPositive
            else
              let bid : Bid :=
                { id := freshBidId
                  auctionId := auctionId
                  buyerId := user.id
                  amount := cents
                  idxPerBuyer := existingCount + 1
                  createdAt := now }
              let notif := notify_bid_outcome auction bid (some user) freshNotifId
              Except.ok
                ({ db with
                    bids := db.bids ++ [bid]
                    notifications := db.notifications ++ [notif] }, bid)

/-- The store after a `place_bid` request: on `abort` the transaction is
rolled back, leaving the store unchanged. -/
def runPlaceBid (db : DB) (user : User) (rawAmount : Option RawAmount)
    (auctionId : Nat) (now : Int) (freshBidId freshNotifId : Nat) : DB :=
  match place_bid db user rawAmount auctionId now freshBidId freshNotifId with
  | Except.ok (db', _) => db'
  | Except.error _ => db

/-- `Auction.activate` (models.py lines 98-105): only a DRAFT auction may
be activated; `start = start_time or utcnow()` (a `datetime` is always
truthy, so `or` is a `None` check), `end_at = start + 24h`, status ACTIVE.
Raising `ValueError` is modelled as `Except.error`. -/
def Auction.activate (a : Auction) (startTime : Option PyDateTime) (now : Int) :
    Except String Auction :=
  if a.status ≠ AuctionStatus.draft then
    Except.error "Only draft auctions can be activated"
  else
    let start := startTime.getD (utcnow now)
    Except.ok
      { a with
          startAt := some start
          endAt := some { start with wall := start.wall + 86400 }
          status := AuctionStatus.active }

/-- The auction after an activation attempt: a raised `ValueError` leaves
the object untouched. -/
def runActivate (a : Auction) (startTime : Option PyDateTime) (now : Int) : Auction :=
  match a.activate startTime now with
  | Except.ok a' => a'
  | Except.error _ => a

/-- The filter of `notify_new_auction` (auctions.py line 447):
`role == BUYER and status == ACTIVE`. -/
def activeBuyer (u : User) : Bool :=
  u.role = UserRole.buyer && u.status = UserStatus.active

/-- `notify_new_auction(auction)` (auctions.py lines 446-454): one
NEW_AUCTION notification per currently-active buyer, fresh primary keys
enumerated from `freshBase`. -/
def notify_new_auction (users : List User) (a : Auction) (freshBase : Nat) :
    List Notification :=
  (users.filter activeBuyer).enum.map fun p =>
    { id := freshBase + p.1
      userId := p.2.id
      ntype := NotificationType.newAuction
      payload := NotifPayload.newAuction a.id }

/-- `isAcceptingBids(auction, now)` as worded by spec §4.1: status ACTIVE
and (`end_at` unset or `end_at > now`), with a naive stored timestamp
interpreted as UTC.  Written from the spec, to be compared with the
guards of `place_bid`. -/
def isAcceptingBids (a : Auction) (now : Int) : Bool :=
  a.status = AuctionStatus.active &&
    (match a.endAt with
     | none => true
     | some e => now < e.wall - e.tz.getD 0)

/-! ### Notification dispatch on commit (push_delivery.py `init_app`) -/

/-- The session-level events relevant to push dispatch: a flushed
`Notification` insert, a transaction commit, a transaction rollback. -/
inductive TxEvent where
  | insertNotif (nid : Nat)
  | commit
  | rollback
deriving DecidableEq, Repr

/-- State of the listeners installed by `init_app`: the
`_push_delivery_pending_ids` list kept in `session.info`, and the
notifications for which `_dispatch_delivery` has been invoked. -/
structure ListenerState where
  pending : List Nat
  dispatched : List Nat
deriving DecidableEq, Repr

/-- One step of the listeners (push_delivery.py lines 29-54):
`after_insert` appends to the pending list, `after_commit` pops the
pending list and dispatches each entry unless delivery is disabled,
`after_rollback` discards the pending list. -/
def listenerStep (disabled : Bool) (s : ListenerState) : TxEvent → ListenerState
  | TxEvent.insertNotif nid => { s with pending := s.pending ++ [nid] }
  | TxEvent.commit =>
      { pending := []
        dispatched := s.dispatched ++ (if disabled then [] else s.pending) }
  | TxEvent.rollback => { s with pending := [] }

def runListener (disabled : Bool) (events : List TxEvent) : ListenerState :=
  events.foldl (listenerStep disabled) { pending := [], dispatched := [] }

/-- Transactional semantics of the same events on the store: inserts are
staged, commit makes the staged rows durable, rollback discards them. -/
structure TxState where
  staged : List Nat
  committed : List Nat
deriving DecidableEq, Repr

def txStep (s : TxState) : TxEvent → TxState
  | TxEvent.insertNotif nid => { s with staged := s.staged ++ [nid] }
  | TxEvent.commit => { staged := [], committed := s.committed ++ s.staged }
  | TxEvent.rollback => { s with staged := [] }

def runTx (events : List TxEvent) : TxState :=
  events.foldl txStep { staged := [], committed := [] }

/-! ### Push delivery (push_delivery.py `deliver_notification`) -/

/-- Outcome of the Expo HTTP round trip, feeding `_send_to_expo`:
`networkError` models `requests.post` raising, `httpError` a response
whose status makes `raise_for_status` raise, `notJson` a 2xx response
whose `.json()` raises `ValueError`, `jsonResp` a decoded body with its
top-level `errors` list and per-ticket statuses (`true` = the ticket
carries `status == "error"`). -/
inductive ExpoResponse where
  | networkError
  | httpError (status : Nat)
  | notJson
  | jsonResp (errors : List String) (ticketIsError : List Bool)
deriving DecidableEq, Repr

structure PushMessage where
  toAddr : String
  title : String
  body : String
deriving DecidableEq, Repr

/-- `_send_to_expo(messages)` (push_delivery.py lines 206-228): an empty
batch returns immediately; a raise propagates as `Except.error`; on a
decodable response the top-level and per-ticket errors are logged (the
returned list) and the call returns normally. -/
def sendToExpo (messages : List PushMessage) (resp : ExpoResponse) :
    Except String (List String) :=
  if messages = [] then Except.ok []
  else
    match resp with
    | ExpoResponse.networkError => Except.error "connection failed"
    | ExpoResponse.httpError status => Except.error ("HTTP " ++ toString status)
    | ExpoResponse.notJson => Except.ok ["Expo push response was not JSON"]
    | ExpoResponse.jsonResp errors ticketIsError =>
        Except.ok (errors ++ (ticketIsError.filter id).map (fun _ => "ticket error"))

/-- How `deliver_notification` is invoked: with a primary key to look up,
or with the data dict collected at flush time (tokens already resolved). -/
inductive NotifRef where
  | byId (nid : Nat)
  | byData (userId : Option Nat) (tokens : Option (List String))
deriving DecidableEq, Repr

/-- Result of a delivery attempt, mirroring the return paths of
`deliver_notification`. -/
inductive DeliverOutcome where
  | skippedMissing
  | skippedNoUser
  | skippedNoTokens
  | delivered (logged : List String)
  | failedLogged (err : String)
deriving DecidableEq, Repr

/-- `expo_push_token`s registered for a user (`Device.query.filter_by(user_id=...)`). -/
def tokensFor (db : DB) (userId : Nat) : List String :=
  (db.devices.filter (fun d => d.userId == userId)).map Device.expoPushToken

/-- `_render_message` reduced to the title it computes; body/payload
resolution cannot raise on the dispatch path and is irrelevant to the
claims, so only the part needed to build the batch is kept. -/
def renderTitle : NotificationType → String
  | NotificationType.newAuction => "New auction available"
  | NotificationType.result => "Auction update"

/-- `deliver_notification` (push_delivery.py lines 75-121).  The result
type `Except String DeliverOutcome` makes a propagated exception
expressible (`Except.error`); the body mirrors the source: a missing row
or missing user id or empty token list returns early, and the only
raising call, `_send_to_expo`, sits inside `try/except` so its error is
mapped to a logged outcome rather than re-raised. -/
def deliver_notification (db : DB) (ref : NotifRef) (resp : ExpoResponse) :
    Except String DeliverOutcome :=
  let data : Option (Option Nat × Option (List String) × NotificationType) :=
    match ref with
    | NotifRef.byId nid =>
        match db.notifications.find? (fun n => n.id == nid) with
        | none => none
        | some n => some (some n.userId, none, n.ntype)
    | NotifRef.byData userId tokens => some (userId, tokens, NotificationType.newAuction)
  match data with
  | none => Except.ok DeliverOutcome.skippedMissing
  | some (userId?, tokens?, ntype) =>
    match userId? with
    | none => Except.ok DeliverOutcome.skippedNoUser
    | some uid =>
      let tokens := tokens?.getD (tokensFor db uid)
      if tokens = [] then Except.ok DeliverOutcome.skippedNoTokens
      else
        let messages := tokens.map fun t =>
          { toAddr := t, title := renderTitle ntype, body := "" }
        match sendToExpo messages resp with
        | Except.error e => Except.ok (DeliverOutcome.failedLogged e)
        | Except.ok logged => Except.ok (DeliverOutcome.delivered logged)

/-! ### Authentication helpers (routes/utils.py, routes/auth.py) -/

inductive AuthError where
  | unknownUser
  | suspended
  | forbidden
  | badRole
  | userNotFound
deriving DecidableEq, Repr

/-- `get_current_user` (utils.py lines 34-48): resolve the JWT identity
to a stored user, rejecting an unknown identity and a user whose stored
status is not ACTIVE. -/
def get_current_user (db : DB) (identity : Option Nat) : Except AuthError User :=
  match identity with
  | none => Except.error AuthError.unknownUser
  | some uid =>
    match db.users.find? (fun u => u.id == uid) with
    | none => Except.error AuthError.unknownUser
    | some user =>
      if ¬ user.is_active then Except.error AuthError.suspended
      else Except.ok user

/-- The JWT claims carried by an access or refresh token: identity plus
the `role`/`status` claim values frozen at token-issuance time. -/
structure JwtClaims where
  identity : Nat
  role : Option String
  status : Option String
deriving DecidableEq, Repr

/-- `role_required(*allowed)` (utils.py lines 17-31): checks only the
`role` claim of the JWT, never the stored user row. -/
def role_required (allowed : List String) (claims : JwtClaims) : Bool :=
  allowed.contains (claims.role.getD "")

/-- `refresh_token` (auth.py lines 108-121): reads `role` and `status`
from the presented refresh token's claims (with defaults) and returns a
fresh access token; the stored user row is never consulted. -/
def refresh_token (db : DB) (claims : JwtClaims) : Except AuthError JwtClaims :=
  Except.ok
    { identity := claims.identity
      role := some (claims.role.getD "buyer")
      status := some (claims.status.getD "active") }

/-- `invite_user` (auth.py lines 124-145): admin-only via
`role_required(ADMIN)` on the JWT claims; records an audit log.  The
stored status of the caller is never consulted. -/
def invite_user (db : DB) (claims : JwtClaims) (email : String) (roleValue : String) :
    Except AuthError DB :=
  if ¬ role_required ["admin"] claims then Except.error AuthError.forbidden
  else if ¬ (["admin", "seller", "buyer"].contains roleValue) then
    Except.error AuthError.badRole
  else
    Except.ok
      { db with
          auditLogs := db.auditLogs ++
            [{ actorId := claims.identity, action := "invite_user", targetId := email }] }

/-- `reset_password` (auth.py lines 148-167): admin-only via
`role_required(ADMIN)` on the JWT claims; looks up the target user from
the request body (404 when absent) and records an audit log.  Like
`refresh_token` and `invite_user`, the caller's stored status is never
consulted. -/
def reset_password (db : DB) (claims : JwtClaims) (targetId : Option Nat) :
    Except AuthError DB :=
  if ¬ role_required ["admin"] claims then Except.error AuthError.forbidden
  else
    match targetId with
    | none => Except.error AuthError.userNotFound
    | some tid =>
      match db.users.find? (fun u => u.id == tid) with
      | none => Except.error AuthError.userNotFound
      | some user =>
        Except.ok
          { db with
              auditLogs := db.auditLogs ++
                [{ actorId := claims.identity, action := "reset_password",
                   targetId := toString user.id }] }

/-! ### Device registration (routes/notifications.py `register_device`) -/

inductive RegError where
  | missingToken
deriving DecidableEq, Repr

/-- The ORM update `device.user_id = user.id` on the row returned by
`filter_by(expo_push_token=token).first()`: reassign the first matching
row. -/
def reassignFirst : List Device → String → Nat → List Device
  | [], _, _ => []
  | d :: rest, t, uid =>
      if d.expoPushToken == t then { d with userId := uid } :: rest
      else d :: reassignFirst rest t uid

/-- `register_device` (notifications.py lines 17-35): `if not token`
rejects a missing or empty token; an unknown token creates a row for the
caller, a known token is reassigned to the caller.  Returns the updated
store and the device id echoed in the response. -/
def register_device (db : DB) (user : User) (token : Option String) (freshId : Nat) :
    Except RegError (DB × Nat) :=
  match token with
  | none => Except.error RegError.missingToken
  | some t =>
    if t = "" then Except.error RegError.missingToken
    else
      match db.devices.find? (fun d => d.expoPushToken == t) with
      | none =>
          let d : Device := { id := freshId, userId := user.id, expoPushToken := t }
          Except.ok ({ db with devices := db.devices ++ [d] }, freshId)
      | some d =>
          Except.ok ({ db with devices := reassignFirst db.devices t user.id }, d.id)

/-! ### Concrete scenario data used by counterexamples and witnesses -/

def seller0 : User := { id := 1, username := "seller1", role := UserRole.seller, status := UserStatus.active }

def buyerA : User := { id := 2, username := "buyer-top", role := UserRole.buyer, status := UserStatus.active }

def buyerB : User := { id := 3, username := "buyer-second", role := UserRole.buyer, status := UserStatus.active }

def suspendedBuyer : User := { id := 4, username := "suspended-buyer", role := UserRole.buyer, status := UserStatus.suspended }

def suspendedAdmin : User := { id := 5, username := "suspended-admin", role := UserRole.admin, status := UserStatus.suspended }

/-- An ACTIVE auction with a 24h window and a minimum price of 50000.00. -/
def auction0 : Auction :=
  { id := 10, sellerId := 1, status := AuctionStatus.active
    startAt := some { wall := 0, tz := some 0 }
    endAt := some { wall := 86400, tz := some 0 }
    minPrice := 5000000 }

def draftAuction : Auction :=
  { id := 11, sellerId := 1, status := AuctionStatus.draft
    startAt := none, endAt := none, minPrice := 10000 }

def db0 : DB :=
  { users := [seller0, buyerA, buyerB, suspendedBuyer, suspendedAdmin]
    auctions := [auction0, draftAuction]
    bids := [], notifications := [], devices := [], auditLogs := [] }

/-! ### C1 — bid amount parsing, rounding, and the minimum price -/

def bidLow : Bid :=
  { id := 20, auctionId := 10, buyerId := 2, amount := 100, idxPerBuyer := 1, createdAt := 100 }

def dbAfterLow : DB :=
  { db0 with
      bids := [bidLow]
      notifications := [notify_bid_outcome auction0 bidLow (some buyerA) 21] }

/-- C1 (counterexample): on the ACTIVE, non-expired `auction0` whose
minimum price is 50000.00, `place_bid` accepts a bid of 1.00 — the
stored amount (100 cents) is far below the auction's minimum price, so
the claimed invariant "stored amount ≥ minimum price" fails: `place_bid`
never consults `min_price`. -/
theorem c1_counterexample_min_price_ignored :
    place_bid db0 buyerA (some (RawAmount.numeric 1 1)) 10 100 20 21 =
      Except.ok (dbAfterLow, bidLow) ∧
    bidLow.amount < auction0.minPrice ∧
    auction0.status = AuctionStatus.active ∧
    auctionExpired auction0 100 = false :=
  ⟨rfl, by decide, rfl, rfl⟩

/-- C1 (amended): every accepted bid stores the submitted decimal
rounded to 2 places under round-half-up and is strictly positive, and a
non-numeric or non-positive raw amount is always rejected — but no
minimum-price comparison is performed. -/
theorem c1_amended_amount_rounded_half_up :
    ∀ (db : DB) (u : User) (raw : Option RawAmount) (aid : Nat) (now : Int)
      (bidId nid : Nat),
      (∀ db' b, place_bid db u raw aid now bidId nid = Except.ok (db', b) →
         ∃ num den, raw = some (RawAmount.numeric num den) ∧
           b.amount = roundHalfUpCents num den ∧ 0 < b.amount) ∧
      ((place_bid db u (some RawAmount.nonNumeric) aid now bidId nid).isOk = false) ∧
      (∀ num den, roundHalfUpCents num den ≤ 0 →
         (place_bid db u (some (RawAmount.numeric num den)) aid now bidId nid).isOk = false) := by
  intro db u raw aid now bidId nid
  refine ⟨?_, ?_, ?_⟩
  · intro db' b h
    match hraw : raw with
    | none => simp [place_bid] at h
    | some r =>
      simp only [place_bid] at h
      split at h
      · exact absurd h (by simp)
      · split at h
        · exact absurd h (by simp)
        · split at h
          · exact absurd h (by simp)
          · split at h
            · exact absurd h (by simp)
            · rename_i heqp
              split at h
              · exact absurd h (by simp)
              · rename_i cents hpos
                split at h
                · exact absurd h (by simp)
                · rename_i hposle
                  obtain ⟨rfl, rfl⟩ : db' = _ ∧ b = _ := by
                    injection h with h'
                    injection h' with h1 h2
                    exact ⟨h1.symm, h2.symm⟩
                  cases r with
                  | nonNumeric => simp [parseBidAmount] at hpos
                  | numeric num den =>
                    refine ⟨num, den, rfl, ?_, ?_⟩
                    · simp only [parseBidAmount] at hpos
                      split at hpos
                      · exact absurd hpos (by simp)
                      · injection hpos with hc
                        exact hc.symm
                    · show 0 < cents
                      omega
  · simp only [place_bid, parseBidAmount]
    repeat' split
    all_goals rfl
  · intro num den hle
    simp only [place_bid, parseBidAmount]
    by_cases hden : den = 0
    · simp only [hden, if_true, reduceIte]
      repeat' split
      all_goals rfl
    · simp only [hden, reduceIte]
      repeat' split
      all_goals first | rfl | omega

/-- C1 (witness): applying the amended theorem to the concrete accepted
bid of 50.505 on `auction0`: the stored amount is 5051 cents
(round-half-up of 50.505) and strictly positive. -/
theorem c1_amended_witness :
    ∃ num den, (some (RawAmount.numeric 50505 1000) : Option RawAmount) =
        some (RawAmount.numeric num den) ∧
      (5051 : Int) = roundHalfUpCents num den ∧ (0 : Int) < 5051 :=
  (c1_amended_amount_rounded_half_up db0 buyerA (some (RawAmount.numeric 50505 1000))
      10 100 22 23).1
    { db0 with
        bids := [{ id := 22, auctionId := 10, buyerId := 2, amount := 5051,
                   idxPerBuyer := 1, createdAt := 100 }]
        notifications := [notify_bid_outcome auction0
          { id := 22, auctionId := 10, buyerId := 2, amount := 5051,
            idxPerBuyer := 1, createdAt := 100 } (some buyerA) 23] }
    { id := 22, auctionId := 10, buyerId := 2, amount := 5051,
      idxPerBuyer := 1, createdAt := 100 }
    rfl

/-! ### C2 — no comparison with the current best bid -/

def bidTop : Bid :=
  { id := 30, auctionId := 10, buyerId := 2, amount := 2500000, idxPerBuyer := 1, createdAt := 100 }

def dbAfterTop : DB :=
  { db0 with
      bids := [bidTop]
      notifications := [notify_bid_outcome auction0 bidTop (some buyerA) 31] }

def bidSecond : Bid :=
  { id := 32, auctionId := 10, buyerId := 3, amount := 2200000, idxPerBuyer := 1, createdAt := 200 }

def dbAfterSecond : DB :=
  { db0 with
      bids := [bidTop, bidSecond]
      notifications := [notify_bid_outcome auction0 bidTop (some buyerA) 31,
                        notify_bid_outcome auction0 bidSecond (some buyerB) 33] }

/-- C2 (counterexample): buyer 2 bids 25000.00, making `bidTop` the
auction's current best bid; buyer 3 then bids 22000.00 and `place_bid`
accepts it even though 22000.00 ≤ 25000.00, so accepted amounts are not
strictly increasing. -/
theorem c2_counterexample_below_best_accepted :
    place_bid db0 buyerA (some (RawAmount.numeric 25000 1)) 10 100 30 31 =
      Except.ok (dbAfterTop, bidTop) ∧
    (∀ b ∈ dbAfterTop.bids, b.amount ≤ bidTop.amount) ∧
    place_bid dbAfterTop buyerB (some (RawAmount.numeric 22000 1)) 10 200 32 33 =
      Except.ok (dbAfterSecond, bidSecond) ∧
    bidSecond.amount ≤ bidTop.amount :=
  ⟨rfl, by decide, rfl, by decide⟩

lemma countBidsBy_map_amount (users : List User) (auctions : List Auction)
    (bids : List Bid) (notifs : List Notification) (devices : List Device)
    (logs : List AuditLog) (f : Bid → Int) (aid uid : Nat) :
    countBidsBy
        { users := users, auctions := auctions,
          bids := bids.map (fun b => { b with amount := f b }),
          notifications := notifs, devices := devices, auditLogs := logs } aid uid =
      countBidsBy
        { users := users, auctions := auctions, bids := bids,
          notifications := notifs, devices := devices, auditLogs := logs } aid uid := by
  unfold countBidsBy
  rw [List.filter_map, List.length_map]
  rfl

lemma place_bid_isOk_congr (db1 db2 : DB) (u : User) (raw : Option RawAmount)
    (aid : Nat) (now : Int) (bidId nid : Nat)
    (hauc : db1.auctions = db2.auctions)
    (hcnt : countBidsBy db1 aid u.id = countBidsBy db2 aid u.id) :
    (place_bid db1 u raw aid now bidId nid).isOk =
      (place_bid db2 u raw aid now bidId nid).isOk := by
  cases raw with
  | none => rfl
  | some r =>
    simp only [place_bid, hauc, hcnt]
    repeat' split
    all_goals rfl

/-- C2 (amended): in this revision the ordering rule is absent —
whether `place_bid` accepts a request does not depend on the amounts of
the bids already recorded (in particular not on the current best bid),
only on the auction's state, the buyer's quota, and the submitted
amount.  Rescaling every stored bid amount arbitrarily leaves the
accept/reject outcome unchanged. -/
theorem c2_amended_acceptance_ignores_best_bid :
    ∀ (users : List User) (auctions : List Auction) (bids : List Bid)
      (notifs : List Notification) (devices : List Device) (logs : List AuditLog)
      (u : User) (raw : Option RawAmount) (aid : Nat) (now : Int) (bidId nid : Nat)
      (f : Bid → Int),
      (place_bid
          { users := users, auctions := auctions,
            bids := bids.map (fun b => { b with amount := f b }),
            notifications := notifs, devices := devices, auditLogs := logs }
          u raw aid now bidId nid).isOk =
        (place_bid
          { users := users, auctions := auctions, bids := bids,
            notifications := notifs, devices := devices, auditLogs := logs }
          u raw aid now bidId nid).isOk := by
  intro users auctions bids notifs devices logs u raw aid now bidId nid f
  exact place_bid_isOk_congr _ _ u raw aid now bidId nid rfl
    (countBidsBy_map_amount users auctions bids notifs devices logs f aid u.id)

/-! ### C3 — per-buyer quota of 2 bids -/

/-- Shape of every successful `place_bid`: the guards that were passed
and the exact store update performed. -/
lemma place_bid_ok_shape (db : DB) (u : User) (raw : Option RawAmount)
    (aid : Nat) (now : Int) (bidId nid : Nat) (db' : DB) (b : Bid)
    (h : place_bid db u raw aid now bidId nid = Except.ok (db', b)) :
    ∃ a cents r, raw = some r ∧ parseBidAmount r = some cents ∧ ¬ cents ≤ 0 ∧
      db.auctions.find? (fun x => x.id == aid) = some a ∧
      a.status = AuctionStatus.active ∧ auctionExpired a now = false ∧
      ¬ 2 ≤ countBidsBy db aid u.id ∧
      b = { id := bidId, auctionId := aid, buyerId := u.id, amount := cents, idxPerBuyer := countBidsBy db aid u.id + 1, createdAt := now } ∧
      db' = { db with bids := db.bids ++ [b], notifications := db.notifications ++ [notify_bid_outcome a b (some u) nid] } := by
  match hraw : raw with
  | none => simp [place_bid] at h
  | some r =>
    simp only [place_bid] at h
    split at h
    · exact absurd h (by simp)
    · rename_i a hf
      split at h
      · exact absurd h (by simp)
      · rename_i hst
        split at h
        · exact absurd h (by simp)
        · rename_i hexp
          split at h
          · exact absurd h (by simp)
          · rename_i hcnt
            split at h
            · exact absurd h (by simp)
            · rename_i cents hparse
              split at h
              · exact absurd h (by simp)
              · rename_i hpos
                obtain ⟨rfl, rfl⟩ : db' = _ ∧ b = _ := by
                  injection h with h'
                  injection h' with h1 h2
                  exact ⟨h1.symm, h2.symm⟩
                refine ⟨a, cents, r, rfl, hparse, hpos, hf, ?_, ?_, hcnt, rfl, rfl⟩
                · exact not_not.mp hst
                · simpa using hexp

/-- C3: a buyer with 2 bids already recorded on an otherwise biddable
auction is rejected with the quota error (whose message contains
"limit"), and every accepted bid starts from a count strictly below 2
and raises it by exactly one, so the per-(auction, buyer) bid count
never exceeds 2. -/
theorem c3_quota_two_bids_per_buyer :
    ∀ (db : DB) (u : User) (raw : Option RawAmount) (aid : Nat) (now : Int)
      (bidId nid : Nat),
      (∀ a r, db.auctions.find? (fun x => x.id == aid) = some a →
         a.status = AuctionStatus.active → auctionExpired a now = false →
         raw = some r → 2 ≤ countBidsBy db aid u.id →
         place_bid db u raw aid now bidId nid = Except.error BidError.bidLimitReached) ∧
      (∀ db' b, place_bid db u raw aid now bidId nid = Except.ok (db', b) →
         countBidsBy db aid u.id < 2 ∧
         countBidsBy db' aid u.id = countBidsBy db aid u.id + 1 ∧
         countBidsBy db' aid u.id ≤ 2) ∧
      ("limit".data <:+: BidError.bidLimitReached.message.data) := by
  intro db u raw aid now bidId nid
  refine ⟨?_, ?_, by decide⟩
  · intro a r hf hst hexp hraw hcnt
    subst hraw
    simp only [place_bid, hf]
    simp [hst, hexp, hcnt]
  · intro db' b h
    obtain ⟨a, cents, r, hraw, hparse, hpos, hf, hst, hexp, hcnt, hb, hdb'⟩ :=
      place_bid_ok_shape db u raw aid now bidId nid db' b h
    subst hdb'
    have hstep :
        countBidsBy
          { db with bids := db.bids ++ [b], notifications := db.notifications ++ [notify_bid_outcome a b (some u) nid] }
          aid u.id = countBidsBy db aid u.id + 1 := by
      subst hb
      unfold countBidsBy
      simp [List.filter_append]
    exact ⟨by omega, hstep, by omega⟩

def bidQ1 : Bid :=
  { id := 40, auctionId := 10, buyerId := 2, amount := 120000, idxPerBuyer := 1, createdAt := 100 }

def dbQ1 : DB :=
  { db0 with
      bids := [bidQ1]
      notifications := [notify_bid_outcome auction0 bidQ1 (some buyerA) 41] }

def bidQ2 : Bid :=
  { id := 42, auctionId := 10, buyerId := 2, amount := 150000, idxPerBuyer := 2, createdAt := 200 }

def dbQ2 : DB :=
  { db0 with
      bids := [bidQ1, bidQ2]
      notifications := [notify_bid_outcome auction0 bidQ1 (some buyerA) 41,
                        notify_bid_outcome auction0 bidQ2 (some buyerA) 43] }

/-- C3 (witness): the spec scenario — bids of 1200.00 and 1500.00 by the
same buyer both succeed, and the third bid of 2000.00 is rejected with
the quota error whose message contains "limit". -/
theorem c3_quota_witness :
    place_bid db0 buyerA (some (RawAmount.numeric 1200 1)) 10 100 40 41 =
      Except.ok (dbQ1, bidQ1) ∧
    place_bid dbQ1 buyerA (some (RawAmount.numeric 1500 1)) 10 200 42 43 =
      Except.ok (dbQ2, bidQ2) ∧
    place_bid dbQ2 buyerA (some (RawAmount.numeric 2000 1)) 10 300 44 45 =
      Except.error BidError.bidLimitReached ∧
    "limit".data <:+: BidError.bidLimitReached.message.data := by
  refine ⟨rfl, rfl, ?_, (c3_quota_two_bids_per_buyer dbQ2 buyerA
      (some (RawAmount.numeric 2000 1)) 10 300 44 45).2.2⟩
  exact (c3_quota_two_bids_per_buyer dbQ2 buyerA (some (RawAmount.numeric 2000 1))
      10 300 44 45).1 auction0 (RawAmount.numeric 2000 1) rfl rfl rfl rfl (by decide)

/-! ### C4 — invalid-state failures exactly when not accepting bids -/

/-- The spec-worded acceptance test agrees with the guards computed by
`place_bid`: the naive-as-UTC reinterpretation makes both compare the
same instant. -/
lemma isAcceptingBids_eq (a : Auction) (now : Int) :
    isAcceptingBids a now =
      (decide (a.status = AuctionStatus.active) && !auctionExpired a now) := by
  unfold isAcceptingBids auctionExpired
  cases hend : a.endAt with
  | none => simp [hend]
  | some e =>
    simp only [hend]
    have h1 : pyInstant (normalizeNaiveUTC e) = e.wall - e.tz.getD 0 := by
      unfold normalizeNaiveUTC pyInstant
      cases htz : e.tz <;> simp [htz]
    rw [h1, ← decide_not]
    congr 1
    exact decide_eq_decide.mpr not_le.symm

/-- C4: for a request carrying an amount against an existing auction,
`place_bid` fails with an invalid-state error ("Auction not active" /
"Auction already closed") exactly when the auction is not accepting
bids — status ACTIVE with `end_at` unset or strictly in the future,
naive timestamps read as UTC — and any error leaves the store
unchanged. -/
theorem c4_invalid_state_iff_not_accepting :
    ∀ (db : DB) (u : User) (r : RawAmount) (aid : Nat) (now : Int)
      (bidId nid : Nat) (a : Auction),
      db.auctions.find? (fun x => x.id == aid) = some a →
      ((place_bid db u (some r) aid now bidId nid = Except.error BidError.auctionNotActive ∨
        place_bid db u (some r) aid now bidId nid = Except.error BidError.auctionClosed) ↔
        isAcceptingBids a now = false) ∧
      (∀ e, place_bid db u (some r) aid now bidId nid = Except.error e →
         runPlaceBid db u (some r) aid now bidId nid = db) := by
  intro db u r aid now bidId nid a hf
  have hiff : isAcceptingBids a now = false ↔
      (¬ a.status = AuctionStatus.active ∨ auctionExpired a now = true) := by
    rw [isAcceptingBids_eq]
    cases hexp : auctionExpired a now <;>
      by_cases hst : a.status = AuctionStatus.active <;> simp [hst, hexp]
  refine ⟨?_, ?_⟩
  · rw [hiff]
    constructor
    · rintro (h | h)
      · by_cases hst : a.status = AuctionStatus.active
        · by_cases hexp : auctionExpired a now = true
          · exact Or.inr hexp
          · exfalso
            simp only [place_bid, hf] at h
            rw [if_neg (not_not.mpr hst), if_neg (by simpa using hexp)] at h
            split at h
            · exact absurd h (by simp)
            · split at h
              · exact absurd h (by simp)
              · split at h
                · exact absurd h (by simp)
                · exact absurd h (by simp)
        · exact Or.inl hst
      · by_cases hst : a.status = AuctionStatus.active
        · by_cases hexp : auctionExpired a now = true
          · exact Or.inr hexp
          · exfalso
            simp only [place_bid, hf] at h
            rw [if_neg (not_not.mpr hst), if_neg (by simpa using hexp)] at h
            split at h
            · exact absurd h (by simp)
            · split at h
              · exact absurd h (by simp)
              · split at h
                · exact absurd h (by simp)
                · exact absurd h (by simp)
        · exact Or.inl hst
    · rintro (hst | hexp)
      · left
        simp [place_bid, hf, hst]
      · by_cases hst : a.status = AuctionStatus.active
        · right
          simp [place_bid, hf, hst, hexp]
        · left
          simp [place_bid, hf, hst]
  · intro e h
    simp [runPlaceBid, h]

/-- C4 (witness): bidding on the DRAFT `draftAuction` fails with an
invalid-state error and leaves the store untouched. -/
theorem c4_invalid_state_witness :
    (place_bid db0 buyerA (some (RawAmount.numeric 100 1)) 11 100 50 51 =
        Except.error BidError.auctionNotActive ∨
      place_bid db0 buyerA (some (RawAmount.numeric 100 1)) 11 100 50 51 =
        Except.error BidError.auctionClosed) ∧
    runPlaceBid db0 buyerA (some (RawAmount.numeric 100 1)) 11 100 50 51 = db0 :=
  ⟨(c4_invalid_state_iff_not_accepting db0 buyerA (RawAmount.numeric 100 1) 11 100 50 51
      draftAuction rfl).1.mpr (by decide),
   (c4_invalid_state_iff_not_accepting db0 buyerA (RawAmount.numeric 100 1) 11 100 50 51
      draftAuction rfl).2 BidError.auctionNotActive rfl⟩

/-! ### C5 — activation -/

/-- C5: `activate` succeeds only on a DRAFT auction, setting `start_at`
to the activation time (`start_time or utcnow()`), `end_at` to exactly
24 hours (86400 s) later, and status to ACTIVE; on a non-DRAFT auction
(in particular an already-ACTIVE one) it raises and leaves `start_at`,
`end_at` and `status` unchanged. -/
theorem c5_activate_draft_only :
    ∀ (a : Auction) (st : Option PyDateTime) (now : Int),
      (a.status = AuctionStatus.draft →
         a.activate st now =
           Except.ok
             { a with
                 startAt := some (st.getD (utcnow now))
                 endAt := some { st.getD (utcnow now) with
                                   wall := (st.getD (utcnow now)).wall + 86400 }
                 status := AuctionStatus.active }) ∧
      (a.status ≠ AuctionStatus.draft →
         (a.activate st now).isOk = false ∧ runActivate a st now = a) := by
  intro a st now
  constructor
  · intro hd
    simp [Auction.activate, hd]
  · intro hnd
    constructor
    · simp only [Auction.activate, if_pos hnd]
      rfl
    · simp [runActivate, Auction.activate, hnd]

/-- C5 (witness): activating the DRAFT `draftAuction` at time 1000 sets
`start_at = 1000` (UTC), `end_at = 87400` and status ACTIVE; a second
activation of the ACTIVE `auction0` fails and leaves it unchanged. -/
theorem c5_activate_witness :
    draftAuction.activate none 1000 =
      Except.ok
        { draftAuction with
            startAt := some { wall := 1000, tz := some 0 }
            endAt := some { wall := 87400, tz := some 0 }
            status := AuctionStatus.active } ∧
    (auction0.activate none 1000).isOk = false ∧
    runActivate auction0 none 1000 = auction0 := by
  refine ⟨?_, (c5_activate_draft_only auction0 none 1000).2 (by decide)⟩
  exact (c5_activate_draft_only draftAuction none 1000).1 rfl

/-! ### C6 — notifications created by bids and auction creation -/

lemma filter_id_eq_nil (xs : List User) (uid : Nat)
    (h : ∀ v ∈ xs, v.id ≠ uid) :
    (xs.filter (fun v => v.id == uid)) = [] := by
  induction xs with
  | nil => rfl
  | cons x rest ih =>
    have hx : (x.id == uid) = false := by
      simpa using h x (List.mem_cons_self x rest)
    simp only [List.filter_cons, hx]
    exact ih (fun v hv => h v (List.mem_cons_of_mem x hv))

lemma filter_active_id_length (l : List User) (uu : User)
    (hnd : (l.map User.id).Nodup) (hm : uu ∈ l) :
    ((l.filter activeBuyer).filter (fun v => v.id == uu.id)).length =
      if activeBuyer uu then 1 else 0 := by
  induction l with
  | nil => cases hm
  | cons x rest ih =>
    have hnd' : (rest.map User.id).Nodup := (List.nodup_cons.mp hnd).2
    have hx : x.id ∉ rest.map User.id := (List.nodup_cons.mp hnd).1
    rcases List.mem_cons.mp hm with rfl | hmem
    · have hrest : ((rest.filter activeBuyer).filter (fun v => v.id == uu.id)) = [] := by
        apply filter_id_eq_nil
        intro v hv hvid
        exact hx (hvid ▸ List.mem_map_of_mem User.id (List.mem_of_mem_filter hv))
      cases hab : activeBuyer uu with
      | true =>
        simp only [List.filter_cons, hab, List.filter]
        simp [hrest]
      | false =>
        simp only [List.filter_cons, hab]
        simp [hrest]
    · have hne : (x.id == uu.id) = false := by
        have : uu.id ∈ rest.map User.id := List.mem_map_of_mem User.id hmem
        by_cases hxe : x.id = uu.id
        · exact absurd (hxe ▸ this) hx
        · simpa using hxe
      cases hab : activeBuyer x with
      | true =>
        simp only [List.filter_cons, hab]
        simp only [List.filter, hne]
        exact ih hnd' hmem
      | false =>
        simp only [List.filter_cons, hab]
        exact ih hnd' hmem

lemma notify_enumFrom_filter (base : Nat) (aucId : Nat) (uid : Nat) :
    ∀ (m : List User) (k : Nat),
      (((List.enumFrom k m).map (fun p =>
          ({ id := base + p.1, userId := p.2.id, ntype := NotificationType.newAuction,
             payload := NotifPayload.newAuction aucId } : Notification))).filter
        (fun n => n.userId == uid)).length =
      (m.filter (fun v => v.id == uid)).length := by
  intro m
  induction m with
  | nil => intro k; rfl
  | cons x rest ih =>
    intro k
    simp only [List.enumFrom, List.map_cons]
    cases hx : (x.id == uid) with
    | true => simp [List.filter_cons, hx, ih]
    | false => simp [List.filter_cons, hx, ih]

/-- C6: every successful `place_bid` appends exactly one notification —
a RESULT notification addressed to the auction's seller carrying the
full serialized snapshot of the new bid — and `notify_new_auction`
creates exactly one NEW_AUCTION notification per user who is an ACTIVE
BUYER (and none for anyone else), each carrying the auction's id. -/
theorem c6_notification_fan_out :
    ∀ (db : DB) (u : User) (raw : Option RawAmount) (aid : Nat) (now : Int)
      (bidId nid : Nat),
      (∀ db' b, place_bid db u raw aid now bidId nid = Except.ok (db', b) →
         ∃ a, db.auctions.find? (fun x => x.id == aid) = some a ∧
           db'.notifications = db.notifications ++
             [{ id := nid, userId := a.sellerId, ntype := NotificationType.result,
                payload := NotifPayload.result a.id (serialize_bid b (some u)) }]) ∧
      (∀ (users : List User) (a : Auction) (base : Nat) (uu : User),
         (users.map User.id).Nodup → uu ∈ users →
         ((notify_new_auction users a base).filter (fun n => n.userId == uu.id)).length =
           if activeBuyer uu then 1 else 0) ∧
      (∀ (users : List User) (a : Auction) (base : Nat) n,
         n ∈ notify_new_auction users a base →
         n.ntype = NotificationType.newAuction ∧
         n.payload = NotifPayload.newAuction a.id) := by
  intro db u raw aid now bidId nid
  refine ⟨?_, ?_, ?_⟩
  · intro db' b h
    obtain ⟨a, cents, r, hraw, hparse, hpos, hf, hst, hexp, hcnt, hb, hdb'⟩ :=
      place_bid_ok_shape db u raw aid now bidId nid db' b h
    refine ⟨a, hf, ?_⟩
    rw [hdb']
    rfl
  · intro users a base uu hnd hm
    have h1 := notify_enumFrom_filter base a.id uu.id (users.filter activeBuyer) 0
    unfold notify_new_auction
    rw [show (users.filter activeBuyer).enum = List.enumFrom 0 (users.filter activeBuyer) from rfl]
    rw [h1]
    exact filter_active_id_length users uu hnd hm
  · intro users a base n hn
    unfold notify_new_auction at hn
    obtain ⟨p, hp, rfl⟩ := List.mem_map.mp hn
    exact ⟨rfl, rfl⟩

/-- C6 (witness): the accepted bid `bidLow` appends exactly the RESULT
notification to the seller (user 1), and for the concrete user list of
`db0`, `notify_new_auction` creates exactly one notification for the
active buyer `buyerA` and zero for the suspended `suspendedBuyer`. -/
theorem c6_notification_witness :
    dbAfterLow.notifications = db0.notifications ++
      [{ id := 21, userId := auction0.sellerId, ntype := NotificationType.result,
         payload := NotifPayload.result auction0.id (serialize_bid bidLow (some buyerA)) }] ∧
    ((notify_new_auction db0.users auction0 60).filter
        (fun n => n.userId == buyerA.id)).length = 1 ∧
    ((notify_new_auction db0.users auction0 60).filter
        (fun n => n.userId == suspendedBuyer.id)).length = 0 := by
  refine ⟨?_, ?_, ?_⟩
  · obtain ⟨a, hf, hnot⟩ :=
      (c6_notification_fan_out db0 buyerA (some (RawAmount.numeric 1 1)) 10 100 20 21).1
        dbAfterLow bidLow rfl
    have ha : a = auction0 := by
      have : some a = some auction0 := by rw [← hf]; rfl
      exact Option.some.inj this
    rw [← ha]
    exact hnot
  · have h := (c6_notification_fan_out db0 buyerA none 10 100 0 0).2.1
      db0.users auction0 60 buyerA (by decide) (by decide)
    rw [h]
    decide
  · have h := (c6_notification_fan_out db0 buyerA none 10 100 0 0).2.1
      db0.users auction0 60 suspendedBuyer (by decide) (by decide)
    rw [h]
    decide

/-! ### C7 — dispatch exactly once per committed notification -/

lemma listener_tx_aux (events : List TxEvent) :
    ∀ (s : ListenerState) (t : TxState),
      s.pending = t.staged → s.dispatched = t.committed →
      (events.foldl (listenerStep false) s).pending = (events.foldl txStep t).staged ∧
      (events.foldl (listenerStep false) s).dispatched = (events.foldl txStep t).committed := by
  induction events with
  | nil =>
    intro s t h1 h2
    exact ⟨h1, h2⟩
  | cons e rest ih =>
    intro s t h1 h2
    cases e with
    | insertNotif nid =>
      exact ih _ _ (by simp [listenerStep, txStep, h1]) (by simp [listenerStep, txStep, h2])
    | commit =>
      exact ih _ _ (by simp [listenerStep, txStep]) (by simp [listenerStep, txStep, h1, h2])
    | rollback =>
      exact ih _ _ (by simp [listenerStep, txStep]) (by simp [listenerStep, txStep, h2])

/-- C7: with push delivery enabled, the listeners installed by
`init_app` dispatch, over any sequence of flushed inserts, commits and
rollbacks, exactly the notifications that are durably committed — each
committed notification once (the dispatched and committed lists agree
element for element), and a notification staged in a transaction that
rolls back is never dispatched. -/
theorem c7_dispatch_once_per_commit :
    ∀ events : List TxEvent,
      (runListener false events).dispatched = (runTx events).committed ∧
      (∀ nid, ((runListener false events).dispatched.count nid =
        (runTx events).committed.count nid)) := by
  intro events
  have h := listener_tx_aux events
    { pending := [], dispatched := [] } { staged := [], committed := [] } rfl rfl
  refine ⟨h.2, fun nid => ?_⟩
  show List.count nid (List.foldl (listenerStep false) { pending := [], dispatched := [] } events).dispatched = List.count nid (List.foldl txStep { staged := [], committed := [] } events).committed
  rw [h.2]

/-! ### C8 — delivery always returns normally -/

/-- C8: `deliver_notification` returns normally on every input: a
missing notification row and an absent token set are silent skips, and a
transport failure (`requests.post` raising, or an HTTP error status) is
caught and logged — the error is never re-raised to the caller, so the
committed transaction that triggered delivery is never affected. -/
theorem c8_delivery_never_raises :
    ∀ (db : DB),
      (∀ ref resp, (deliver_notification db ref resp).isOk = true) ∧
      (∀ nid resp, db.notifications.find? (fun n => n.id == nid) = none →
         deliver_notification db (NotifRef.byId nid) resp =
           Except.ok DeliverOutcome.skippedMissing) ∧
      (∀ nid n resp, db.notifications.find? (fun x => x.id == nid) = some n →
         tokensFor db n.userId = [] →
         deliver_notification db (NotifRef.byId nid) resp =
           Except.ok DeliverOutcome.skippedNoTokens) ∧
      (∀ nid n, db.notifications.find? (fun x => x.id == nid) = some n →
         tokensFor db n.userId ≠ [] →
         deliver_notification db (NotifRef.byId nid) ExpoResponse.networkError =
           Except.ok (DeliverOutcome.failedLogged "connection failed") ∧
         ∀ s, deliver_notification db (NotifRef.byId nid) (ExpoResponse.httpError s) =
           Except.ok (DeliverOutcome.failedLogged ("HTTP " ++ toString s))) := by
  intro db
  refine ⟨?_, ?_, ?_, ?_⟩
  · intro ref resp
    unfold deliver_notification
    dsimp only
    repeat' split
    all_goals rfl
  · intro nid resp h
    simp [deliver_notification, h]
  · intro nid n resp hf htok
    simp [deliver_notification, hf, htok]
  · intro nid n hf htok
    have hmsg :
        (tokensFor db n.userId).map
            (fun t => ({ toAddr := t, title := renderTitle n.ntype, body := "" } : PushMessage)) ≠
          [] := by
      simpa using htok
    constructor
    · simp [deliver_notification, hf, htok, sendToExpo, hmsg]
    · intro s
      simp [deliver_notification, hf, htok, sendToExpo, hmsg]

def notif0 : Notification :=
  { id := 70, userId := 2, ntype := NotificationType.result
    payload := NotifPayload.result 10 (serialize_bid bidLow (some buyerA)) }

def notifNoDevice : Notification :=
  { id := 71, userId := 3, ntype := NotificationType.newAuction
    payload := NotifPayload.newAuction 10 }

def deviceA : Device :=
  { id := 80, userId := 2, expoPushToken := "ExponentPushToken[aaa]" }

def dbPush : DB :=
  { db0 with notifications := [notif0, notifNoDevice], devices := [deviceA] }

/-- C8 (witness): concrete skips and a concrete swallowed transport
failure for the store `dbPush`. -/
theorem c8_delivery_witness :
    deliver_notification dbPush (NotifRef.byId 99) ExpoResponse.notJson =
      Except.ok DeliverOutcome.skippedMissing ∧
    deliver_notification dbPush (NotifRef.byId 71) ExpoResponse.notJson =
      Except.ok DeliverOutcome.skippedNoTokens ∧
    deliver_notification dbPush (NotifRef.byId 70) ExpoResponse.networkError =
      Except.ok (DeliverOutcome.failedLogged "connection failed") := by
  refine ⟨?_, ?_, ?_⟩
  · exact (c8_delivery_never_raises dbPush).2.1 99 ExpoResponse.notJson (by decide)
  · exact (c8_delivery_never_raises dbPush).2.2.1 71 notifNoDevice ExpoResponse.notJson
      (by decide) (by decide)
  · exact ((c8_delivery_never_raises dbPush).2.2.2 70 notif0 (by decide) (by decide)).1

/-! ### C9 — suspended users and authenticated operations -/

def suspendedClaims : JwtClaims :=
  { identity := 4, role := some "buyer", status := some "active" }

def suspendedAdminClaims : JwtClaims :=
  { identity := 5, role := some "admin", status := some "active" }

/-- C9 (counterexample): user 4 and user 5 are stored as SUSPENDED in
`db0`, yet token refresh succeeds for user 4 and the admin-only invite
and password reset succeed for user 5 — `refresh_token`, `invite_user`
and `reset_password` consult only the JWT claims, never the stored
status, so a SUSPENDED user is not rejected from all authenticated
operations. -/
theorem c9_counterexample_suspended_refresh_succeeds :
    db0.users.find? (fun u => u.id == 4) = some suspendedBuyer ∧
    suspendedBuyer.status = UserStatus.suspended ∧
    (refresh_token db0 suspendedClaims).isOk = true ∧
    db0.users.find? (fun u => u.id == 5) = some suspendedAdmin ∧
    suspendedAdmin.status = UserStatus.suspended ∧
    (invite_user db0 suspendedAdminClaims "invitee@example.test" "buyer").isOk = true ∧
    (reset_password db0 suspendedAdminClaims (some 2)).isOk = true := by
  refine ⟨by decide, by decide, rfl, by decide, by decide, ?_, ?_⟩
  · decide
  · decide

/-- C9 (amended): endpoints that resolve the caller through
`get_current_user` do reject a user whose stored status is SUSPENDED,
but `refresh_token` always succeeds for any presented claims, and
`invite_user` and `reset_password` succeed for any claims carrying the
admin role (the latter whenever the target user exists) — all without
consulting the caller's stored user row. -/
theorem c9_amended_claims_only_endpoints :
    ∀ (db : DB) (ident : Nat) (u : User),
      (db.users.find? (fun x => x.id == ident) = some u →
         u.status = UserStatus.suspended →
         get_current_user db (some ident) = Except.error AuthError.suspended) ∧
      (∀ claims, (refresh_token db claims).isOk = true) ∧
      (∀ claims email, claims.role = some "admin" →
         (invite_user db claims email "buyer").isOk = true) ∧
      (∀ claims tid target, claims.role = some "admin" →
         db.users.find? (fun x => x.id == tid) = some target →
         (reset_password db claims (some tid)).isOk = true) := by
  intro db ident u
  refine ⟨?_, fun _ => rfl, ?_, ?_⟩
  · intro hf hsusp
    simp [get_current_user, hf, User.is_active, hsusp]
  · intro claims email hrole
    simp only [invite_user, role_required, hrole]
    rfl
  · intro claims tid target hrole hfind
    simp only [reset_password, role_required, hrole, hfind]
    rfl

/-- C9 (witness): applying the amended theorem at `db0` — the suspended
user 4 is rejected by `get_current_user`, while refresh, invite and
password reset go through on claims alone. -/
theorem c9_amended_witness :
    get_current_user db0 (some 4) = Except.error AuthError.suspended ∧
    (refresh_token db0 suspendedClaims).isOk = true ∧
    (invite_user db0 suspendedAdminClaims "invitee@example.test" "buyer").isOk = true ∧
    (reset_password db0 suspendedAdminClaims (some 2)).isOk = true :=
  ⟨(c9_amended_claims_only_endpoints db0 4 suspendedBuyer).1 (by decide) (by decide),
   (c9_amended_claims_only_endpoints db0 4 suspendedBuyer).2.1 suspendedClaims,
   (c9_amended_claims_only_endpoints db0 4 suspendedBuyer).2.2.1 suspendedAdminClaims
     "invitee@example.test" rfl,
   (c9_amended_claims_only_endpoints db0 4 suspendedBuyer).2.2.2 suspendedAdminClaims
     2 buyerA rfl (by decide)⟩

/-! ### C10 — device token upsert and recipient resolution -/

lemma filter_token_eq_nil (l : List Device) (t : String)
    (h : ∀ d ∈ l, d.expoPushToken ≠ t) :
    l.filter (fun d => d.expoPushToken == t) = [] := by
  induction l with
  | nil => rfl
  | cons x rest ih =>
    have hx : (x.expoPushToken == t) = false := by
      simpa using h x (List.mem_cons_self x rest)
    simp only [List.filter_cons, hx]
    exact ih (fun d hd => h d (List.mem_cons_of_mem x hd))

lemma reassignFirst_map_token (l : List Device) (t : String) (uid : Nat) :
    (reassignFirst l t uid).map Device.expoPushToken = l.map Device.expoPushToken := by
  induction l with
  | nil => rfl
  | cons x rest ih =>
    cases hx : (x.expoPushToken == t) with
    | true => simp [reassignFirst, hx]
    | false => simp [reassignFirst, hx, ih]

lemma reassignFirst_filter (l : List Device) (t : String) (uid : Nat)
    (hnd : (l.map Device.expoPushToken).Nodup)
    (hf : ∃ d, l.find? (fun x => x.expoPushToken == t) = some d) :
    ((reassignFirst l t uid).filter (fun d => d.expoPushToken == t)).map Device.userId =
      [uid] := by
  induction l with
  | nil => simp at hf
  | cons x rest ih =>
    have hnd' : (rest.map Device.expoPushToken).Nodup := (List.nodup_cons.mp hnd).2
    have hx' : x.expoPushToken ∉ rest.map Device.expoPushToken := (List.nodup_cons.mp hnd).1
    cases hx : (x.expoPushToken == t) with
    | true =>
      have hxt : x.expoPushToken = t := by simpa using hx
      have hrest : rest.filter (fun d => d.expoPushToken == t) = [] := by
        apply filter_token_eq_nil
        intro d hd hdt
        exact hx' (by rw [hxt, ← hdt]; exact List.mem_map_of_mem Device.expoPushToken hd)
      simp [reassignFirst, hx, List.filter_cons, hrest]
    | false =>
      obtain ⟨d, hd⟩ := hf
      have hfrest : ∃ d, rest.find? (fun x => x.expoPushToken == t) = some d := by
        refine ⟨d, ?_⟩
        rw [List.find?_cons, hx] at hd
        exact hd
      simp only [reassignFirst, hx, Bool.false_eq_true, if_false, List.filter_cons]
      exact ih hnd' hfrest

lemma tokens_owner_iff (devs : List Device) (t : String) (uid : Nat)
    (hfil : (devs.filter (fun d => d.expoPushToken == t)).map Device.userId = [uid]) :
    ∀ v, (t ∈ (devs.filter (fun d => d.userId == v)).map Device.expoPushToken ↔ v = uid) := by
  intro v
  constructor
  · intro hmem
    obtain ⟨d, hd, hdt⟩ := List.mem_map.mp hmem
    obtain ⟨hdd, hdv⟩ := List.mem_filter.mp hd
    have hdfil : d ∈ devs.filter (fun d => d.expoPushToken == t) :=
      List.mem_filter.mpr ⟨hdd, by simpa using hdt⟩
    have : d.userId ∈ [uid] := hfil ▸ List.mem_map_of_mem Device.userId hdfil
    have hdu : d.userId = uid := by simpa using this
    have hv : d.userId = v := by simpa using hdv
    rw [← hv, hdu]
  · intro hv
    cases hfl : devs.filter (fun d => d.expoPushToken == t) with
    | nil => rw [hfl] at hfil; simp at hfil
    | cons d0 rest =>
      rw [hfl] at hfil
      cases rest with
      | cons d1 rest' => simp at hfil
      | nil =>
        have hdu : d0.userId = uid := by simpa using hfil
        have hd0 : d0 ∈ devs.filter (fun d => d.expoPushToken == t) := by
          rw [hfl]; exact List.mem_cons_self d0 []
        obtain ⟨hdd, hdt⟩ := List.mem_filter.mp hd0
        refine List.mem_map.mpr ⟨d0, List.mem_filter.mpr ⟨hdd, by simp [hdu, hv]⟩, ?_⟩
        simpa using hdt

/-- C10: a successful `register_device` keeps the token column unique:
registering an unknown token appends one row owned by the caller, and
registering a known token reassigns the existing row.  Either way the
devices holding the token afterwards are exactly one row owned by the
caller, and the token is resolved (as `deliver_notification` resolves
recipients, via `tokensFor`) for the caller and for nobody else. -/
theorem c10_register_device_upsert :
    ∀ (db : DB) (u : User) (t : String) (fid : Nat) (db' : DB) (did : Nat),
      register_device db u (some t) fid = Except.ok (db', did) →
      (db.devices.map Device.expoPushToken).Nodup →
      ((db'.devices.map Device.expoPushToken).Nodup ∧
       (db'.devices.filter (fun d => d.expoPushToken == t)).map Device.userId = [u.id] ∧
       (∀ v, t ∈ tokensFor db' v ↔ v = u.id)) := by
  intro db u t fid db' did h hnd
  have ht : ¬ t = "" := by
    intro he
    rw [register_device, if_pos he] at h
    exact absurd h (by simp)
  rw [register_device, if_neg ht] at h
  cases hf : db.devices.find? (fun d => d.expoPushToken == t) with
  | none =>
    rw [hf] at h
    have hdb' : db' = { db with devices := db.devices ++ [(⟨fid, u.id, t⟩ : Device)] } := by
      injection h with h'
      injection h' with h1 h2
      exact h1.symm
    have hdev : db'.devices = db.devices ++ [(⟨fid, u.id, t⟩ : Device)] := by
      rw [hdb']
    have hnotin : ∀ d ∈ db.devices, d.expoPushToken ≠ t := by
      intro d hd
      have := List.find?_eq_none.mp hf d hd
      simpa using this
    have hfilnil : db.devices.filter (fun d => d.expoPushToken == t) = [] :=
      filter_token_eq_nil db.devices t hnotin
    have hfil : (db'.devices.filter (fun d => d.expoPushToken == t)).map Device.userId =
        [u.id] := by
      rw [hdev, List.filter_append, hfilnil]
      simp
    refine ⟨?_, hfil, tokens_owner_iff _ t u.id hfil⟩
    rw [hdev, List.map_append, List.nodup_append]
    refine ⟨hnd, by simp, ?_⟩
    intro x hx
    simp only [List.map_cons, List.map_nil]
    intro hmem
    obtain ⟨d, hd, hdt⟩ := List.mem_map.mp hx
    have hxt : x = t := by simpa using hmem
    exact hnotin d hd (by rw [hdt, hxt])
  | some d =>
    rw [hf] at h
    have hdb' : db' = { db with devices := reassignFirst db.devices t u.id } := by
      injection h with h'
      injection h' with h1 h2
      exact h1.symm
    have hdev : db'.devices = reassignFirst db.devices t u.id := by
      rw [hdb']
    have hfil : (db'.devices.filter (fun d => d.expoPushToken == t)).map Device.userId =
        [u.id] := by
      rw [hdev]
      exact reassignFirst_filter db.devices t u.id hnd ⟨d, hf⟩
    refine ⟨?_, hfil, tokens_owner_iff _ t u.id hfil⟩
    rw [hdev, reassignFirst_map_token]
    exact hnd

def dbDev1 : DB := { db0 with devices := [(⟨90, 2, "tokX"⟩ : Device)] }

def dbDev2 : DB := { db0 with devices := [(⟨90, 3, "tokX"⟩ : Device)] }

/-- C10 (witness): registering "tokX" for buyer 2 creates the row, then
registering the same token for buyer 3 reassigns that row; afterwards
buyer 3 is the token's sole owner and its only resolved recipient. -/
theorem c10_register_device_witness :
    register_device db0 buyerA (some "tokX") 90 = Except.ok (dbDev1, 90) ∧
    register_device dbDev1 buyerB (some "tokX") 91 = Except.ok (dbDev2, 90) ∧
    ((dbDev2.devices.map Device.expoPushToken).Nodup ∧
     (dbDev2.devices.filter (fun d => d.expoPushToken == "tokX")).map Device.userId =
       [buyerB.id] ∧
     (∀ v, "tokX" ∈ tokensFor dbDev2 v ↔ v = buyerB.id)) :=
  ⟨rfl, rfl,
   c10_register_device_upsert dbDev1 buyerB "tokX" 91 dbDev2 90 rfl (by decide)⟩
